import Mathlib

/-!
Shallow embedding of the `kuehree` range-sum library
(`src/sum_query.rs`).

Numeric elements `T : Num + Copy` are modelled by `Int`; the containers
(`Vec<T>`, `[T; N]`, `&[T]`) are modelled by `List Int`.  A Rust panic
(failed `assert!` or out-of-bounds indexing) is modelled by `none`, so
`query` returns `Option Int`.  The construction `while` loops are
embedded with an explicit iteration counter: the counter starts at the
number of remaining iterations (`data.len() - idx`), which is exactly
how many times the loop body runs, so the embedding performs the same
sequence of reads and writes as the source.
-/

namespace Kuehree

/-- The construction `while` loop of `SumQueryVec::new` and
`SumQuerySlice::new` (`sum_query.rs` lines 137-148 and 207-218): while
`idx < data.len()`, push `data[idx]` when `idx == 0`, otherwise push
`data[idx] + prefix_sum_array[idx - 1]`; `fuel` counts the remaining
iterations. -/
def prefixLoopGo (data : List Int) : Nat → List Int → Nat → List Int
  | 0, acc, _ => acc
  | fuel + 1, acc, idx =>
    if idx < data.length then
      if idx = 0 then
        prefixLoopGo data fuel (acc ++ [data.getD idx 0]) (idx + 1)
      else
        prefixLoopGo data fuel (acc ++ [data.getD idx 0 + acc.getD (idx - 1) 0]) (idx + 1)
    else
      acc

/-- The whole construction pass of `SumQueryVec::new` /
`SumQuerySlice::new`: run the loop from `idx = 0` on an empty vector;
the loop body executes exactly `data.len()` times. -/
def prefixSumLoop (data : List Int) : List Int :=
  prefixLoopGo data data.length [] 0

/-- The construction `while` loop of `SumQueryFixed::new`
(`sum_query.rs` lines 172-183): starting from the zero-filled array
`[T::zero(); N]`, write `prefix_sum_array[idx] = data[idx]` when
`idx == 0`, otherwise `prefix_sum_array[idx] = data[idx] +
prefix_sum_array[idx - 1]`; `fuel` counts the remaining iterations. -/
def fixedLoopGo (data : List Int) : Nat → List Int → Nat → List Int
  | 0, arr, _ => arr
  | fuel + 1, arr, idx =>
    if idx < data.length then
      if idx = 0 then
        fixedLoopGo data fuel (arr.set idx (data.getD idx 0)) (idx + 1)
      else
        fixedLoopGo data fuel (arr.set idx (data.getD idx 0 + arr.getD (idx - 1) 0)) (idx + 1)
    else
      arr

/-- The whole construction pass of `SumQueryFixed::new`: run the loop
from `idx = 0` on the zero-filled array of length `N = data.len()`. -/
def fixedSumLoop (data : List Int) : List Int :=
  fixedLoopGo data data.length (List.replicate data.length 0) 0

/-- `struct SumQueryVec<T> { data: Vec<T>, prefix_sum_array: Vec<T> }`. -/
structure SumQueryVec where
  data : List Int
  prefix_sum_array : List Int

/-- `struct SumQueryFixed<T, const N: usize>` with its two `[T; N]`
fields; the const parameter `N` is the length of the stored lists. -/
structure SumQueryFixed where
  data : List Int
  prefix_sum_array : List Int

/-- `struct SumQuerySlice<'a, T> { data: &'a [T], prefix_sum_array: Vec<T> }`. -/
structure SumQuerySlice where
  data : List Int
  prefix_sum_array : List Int

/-- `SumQueryVec::new` (`sum_query.rs` lines 207-224). -/
def SumQueryVec.new (data : List Int) : SumQueryVec :=
  { data := data, prefix_sum_array := prefixSumLoop data }

/-- `SumQueryFixed::new` (`sum_query.rs` lines 172-189). -/
def SumQueryFixed.new (data : List Int) : SumQueryFixed :=
  { data := data, prefix_sum_array := fixedSumLoop data }

/-- `SumQuerySlice::new` (`sum_query.rs` lines 137-154). -/
def SumQuerySlice.new (data : List Int) : SumQuerySlice :=
  { data := data, prefix_sum_array := prefixSumLoop data }

/-- Shared body of `query` (`sum_query.rs` lines 156-164, 191-199 and
226-234): `assert!(end >= start)`; if `start == 0` return
`prefix_sum_array[end]`, else `prefix_sum_array[end] -
prefix_sum_array[start - 1]`.  A failed assertion or an out-of-bounds
index panics, modelled as `none`. -/
def queryImpl (psa : List Int) (start stop : Nat) : Option Int :=
  if stop ≥ start then
    if start = 0 then
      psa[stop]?
    else
      match psa[stop]?, psa[start - 1]? with
      | some a, some b => some (a - b)
      | _, _ => none
  else
    none

/-- `SumQueryVec::query` (`sum_query.rs` lines 226-234). -/
def SumQueryVec.query (s : SumQueryVec) (start stop : Nat) : Option Int :=
  queryImpl s.prefix_sum_array start stop

/-- `SumQueryFixed::query` (`sum_query.rs` lines 191-199). -/
def SumQueryFixed.query (s : SumQueryFixed) (start stop : Nat) : Option Int :=
  queryImpl s.prefix_sum_array start stop

/-- `SumQuerySlice::query` (`sum_query.rs` lines 156-164). -/
def SumQuerySlice.query (s : SumQuerySlice) (start stop : Nat) : Option Int :=
  queryImpl s.prefix_sum_array start stop

/-- `fn query(&self, ...)` takes the receiver by immutable borrow: the
state-passing embedding of a call returns the result together with the
receiver, which the borrow leaves unchanged. -/
def SumQueryVec.queryCall (s : SumQueryVec) (start stop : Nat) :
    Option Int × SumQueryVec :=
  (s.query start stop, s)

/-- State-passing embedding of a `SumQueryFixed::query` call, as in
`SumQueryVec.queryCall`. -/
def SumQueryFixed.queryCall (s : SumQueryFixed) (start stop : Nat) :
    Option Int × SumQueryFixed :=
  (s.query start stop, s)

/-- Direct naive summation of `S[start..=stop]`, stated from the spec as
the ground truth that `query` is compared against. -/
def naiveSum (S : List Int) (start stop : Nat) : Int :=
  ((S.drop start).take (stop - start + 1)).sum

/-- The first `idx` entries of the mathematical prefix-sum table:
entry `i` is the sum of the first `i + 1` elements of `data`. -/
def psUpTo (data : List Int) (idx : Nat) : List Int :=
  (List.range idx).map fun i => (data.take (i + 1)).sum

/-- The full mathematical prefix-sum table of `data`. -/
def psTable (data : List Int) : List Int :=
  psUpTo data data.length

lemma length_psUpTo (data : List Int) (idx : Nat) : (psUpTo data idx).length = idx := by
  simp [psUpTo]

lemma length_psTable (data : List Int) : (psTable data).length = data.length := by
  simp [psTable, length_psUpTo]

lemma psUpTo_succ (data : List Int) (idx : Nat) :
    psUpTo data (idx + 1) = psUpTo data idx ++ [(data.take (idx + 1)).sum] := by
  simp [psUpTo, List.range_succ]

lemma psUpTo_getElem? (data : List Int) {i idx : Nat} (h : i < idx) :
    (psUpTo data idx)[i]? = some ((data.take (i + 1)).sum) := by
  simp [psUpTo, List.getElem?_map, List.getElem?_range h]

lemma psTable_getElem? (data : List Int) {i : Nat} (h : i < data.length) :
    (psTable data)[i]? = some ((data.take (i + 1)).sum) :=
  psUpTo_getElem? data h

lemma psUpTo_getD (data : List Int) {i idx : Nat} (h : i < idx) :
    (psUpTo data idx).getD i 0 = (data.take (i + 1)).sum := by
  simp [List.getD_eq_getElem?_getD, psUpTo_getElem? data h]

lemma take_one_sum (data : List Int) (h : 0 < data.length) :
    (data.take 1).sum = data.getD 0 0 := by
  rw [List.sum_take_succ data 0 h, List.getD_eq_getElem data 0 h]
  simp

lemma take_succ_sum (data : List Int) {idx : Nat} (h : idx < data.length) :
    (data.take (idx + 1)).sum = (data.take idx).sum + data.getD idx 0 := by
  rw [List.sum_take_succ data idx h, List.getD_eq_getElem data 0 h]

lemma prefixLoopGo_eq (data : List Int) :
    ∀ fuel idx, fuel = data.length - idx → idx ≤ data.length →
      prefixLoopGo data fuel (psUpTo data idx) idx = psTable data
  | 0, idx, hf, hle => by
    have hidx : idx = data.length := by omega
    subst hidx
    rfl
  | fuel + 1, idx, hf, hle => by
    have hlt : idx < data.length := by omega
    rw [prefixLoopGo, if_pos hlt]
    by_cases h0 : idx = 0
    · subst h0
      rw [if_pos rfl]
      have hacc : psUpTo data 0 ++ [data.getD 0 0] = psUpTo data 1 := by
        rw [psUpTo_succ, take_one_sum data hlt]
      rw [hacc]
      exact prefixLoopGo_eq data fuel 1 (by omega) (by omega)
    · rw [if_neg h0]
      have h1 : 1 ≤ idx := Nat.one_le_iff_ne_zero.mpr h0
      have hread : (psUpTo data idx).getD (idx - 1) 0 = (data.take idx).sum := by
        have he : idx - 1 + 1 = idx := by omega
        rw [psUpTo_getD data (show idx - 1 < idx by omega), he]
      have hacc : psUpTo data idx ++ [data.getD idx 0 + (psUpTo data idx).getD (idx - 1) 0]
          = psUpTo data (idx + 1) := by
        rw [psUpTo_succ, hread, take_succ_sum data hlt, Int.add_comm]
      rw [hacc]
      exact prefixLoopGo_eq data fuel (idx + 1) (by omega) (by omega)

lemma prefixSumLoop_eq (data : List Int) : prefixSumLoop data = psTable data := by
  have h := prefixLoopGo_eq data data.length 0 (by omega) (by omega)
  simpa [prefixSumLoop, psUpTo] using h

lemma fixedLoopGo_eq (data : List Int) :
    ∀ fuel idx, fuel = data.length - idx → idx ≤ data.length →
      fixedLoopGo data fuel (psUpTo data idx ++ List.replicate (data.length - idx) 0) idx
        = psTable data
  | 0, idx, hf, hle => by
    have hidx : idx = data.length := by omega
    subst hidx
    simp [fixedLoopGo, psTable]
  | fuel + 1, idx, hf, hle => by
    have hlt : idx < data.length := by omega
    rw [fixedLoopGo, if_pos hlt]
    have hlen : (psUpTo data idx).length = idx := length_psUpTo data idx
    have hrep : List.replicate (data.length - idx) (0 : Int)
        = 0 :: List.replicate (data.length - (idx + 1)) 0 := by
      rw [← List.replicate_succ]
      congr 1
      omega
    have hset : ∀ v : Int,
        (psUpTo data idx ++ List.replicate (data.length - idx) 0).set idx v
          = psUpTo data idx ++ [v] ++ List.replicate (data.length - (idx + 1)) 0 := by
      intro v
      rw [List.set_append_right idx v (by omega), hlen, Nat.sub_self, hrep]
      simp
    by_cases h0 : idx = 0
    · subst h0
      rw [if_pos rfl, hset]
      have hv : data.getD 0 0 = (data.take 1).sum := (take_one_sum data hlt).symm
      rw [hv, ← psUpTo_succ]
      exact fixedLoopGo_eq data fuel 1 (by omega) (by omega)
    · rw [if_neg h0]
      have h1 : 1 ≤ idx := Nat.one_le_iff_ne_zero.mpr h0
      have hread : (psUpTo data idx ++ List.replicate (data.length - idx) 0).getD (idx - 1) 0
          = (data.take idx).sum := by
        have he : idx - 1 + 1 = idx := by omega
        rw [List.getD_eq_getElem?_getD, List.getElem?_append_left (by omega),
          psUpTo_getElem? data (show idx - 1 < idx by omega), Option.getD_some, he]
      rw [hset, hread]
      have hv : data.getD idx 0 + (data.take idx).sum = (data.take (idx + 1)).sum := by
        rw [take_succ_sum data hlt, Int.add_comm]
      rw [hv, ← psUpTo_succ]
      exact fixedLoopGo_eq data fuel (idx + 1) (by omega) (by omega)

lemma fixedSumLoop_eq (data : List Int) : fixedSumLoop data = psTable data := by
  have h := fixedLoopGo_eq data data.length 0 (by omega) (by omega)
  simpa [fixedSumLoop, psUpTo] using h

lemma queryImpl_psTable (data : List Int) {start stop : Nat}
    (h1 : start ≤ stop) (h2 : stop < data.length) :
    queryImpl (psTable data) start stop
      = some ((data.take (stop + 1)).sum - (data.take start).sum) := by
  unfold queryImpl
  rw [if_pos h1]
  by_cases h0 : start = 0
  · subst h0
    rw [if_pos rfl, psTable_getElem? data h2]
    simp
  · rw [if_neg h0, psTable_getElem? data h2, psTable_getElem? data (by omega)]
    have : start - 1 + 1 = start := by omega
    rw [this]

lemma sum_take_sub (S : List Int) {start stop : Nat} (h1 : start ≤ stop) :
    naiveSum S start stop = (S.take (stop + 1)).sum - (S.take start).sum := by
  unfold naiveSum
  rw [List.take_drop]
  have hidx : start + (stop - start + 1) = stop + 1 := by omega
  rw [hidx]
  have hsplit := congrArg List.sum (List.take_append_drop start (S.take (stop + 1)))
  rw [List.sum_append, List.take_take, Nat.min_eq_left (by omega)] at hsplit
  omega

lemma vec_table (S : List Int) : (SumQueryVec.new S).prefix_sum_array = psTable S :=
  prefixSumLoop_eq S

lemma fixed_table (S : List Int) : (SumQueryFixed.new S).prefix_sum_array = psTable S :=
  fixedSumLoop_eq S

lemma slice_table (S : List Int) : (SumQuerySlice.new S).prefix_sum_array = psTable S :=
  prefixSumLoop_eq S

lemma psTable_getD (data : List Int) {i : Nat} (h : i < data.length) :
    (psTable data).getD i 0 = (data.take (i + 1)).sum :=
  psUpTo_getD data h

lemma queryImpl_none_of_oob (psa : List Int) {start stop : Nat} (h : psa.length ≤ stop) :
    queryImpl psa start stop = none := by
  unfold queryImpl
  by_cases hss : stop ≥ start
  · rw [if_pos hss]
    have hnone : psa[stop]? = none := List.getElem?_eq_none h
    by_cases h0 : start = 0
    · rw [if_pos h0, hnone]
    · rw [if_neg h0, hnone]
  · rw [if_neg hss]

lemma queryImpl_psTable_violation (data : List Int) {start stop : Nat}
    (h : stop < start ∨ data.length ≤ stop ∨ data.length ≤ start) :
    queryImpl (psTable data) start stop = none := by
  rcases Nat.lt_or_ge stop start with hlt | hge
  · unfold queryImpl
    rw [if_neg (by omega)]
  · exact queryImpl_none_of_oob _ (by rw [length_psTable]; omega)

lemma queryImpl_psTable_formula (data : List Int) {start stop : Nat}
    (h1 : start ≤ stop) (h2 : stop < data.length) :
    queryImpl (psTable data) start stop
      = some (if start = 0 then (psTable data).getD stop 0
          else (psTable data).getD stop 0 - (psTable data).getD (start - 1) 0) := by
  rw [queryImpl_psTable data h1 h2]
  by_cases h0 : start = 0
  · subst h0
    rw [if_pos rfl, psTable_getD data h2]
    simp
  · have he : start - 1 + 1 = start := by omega
    rw [if_neg h0, psTable_getD data h2, psTable_getD data (by omega), he]

/-- C1: for every source sequence `S` and every pair `(start, stop)`
with `start ≤ stop < S.length`, `query start stop` on a structure
constructed from `S` returns the sum of `S[start..=stop]` computed by
direct naive summation, for each of the three storage variants. -/
theorem query_matches_naive_sum (S : List Int) (start stop : Nat)
    (h1 : start ≤ stop) (h2 : stop < S.length) :
    (SumQueryFixed.new S).query start stop = some (naiveSum S start stop) ∧
    (SumQueryVec.new S).query start stop = some (naiveSum S start stop) ∧
    (SumQuerySlice.new S).query start stop = some (naiveSum S start stop) := by
  have hq := queryImpl_psTable S h1 h2
  have hn := sum_take_sub S h1
  refine ⟨?_, ?_, ?_⟩ <;>
    simp only [SumQueryFixed.query, SumQueryVec.query, SumQuerySlice.query,
      fixed_table, vec_table, slice_table, hq, hn]

/-- Witness for C1 at `S = [1, 3, 4, 8, 6, 1, 4, 2]`, `(start, stop) = (3, 6)`. -/
theorem query_matches_naive_sum_witness :
    (SumQueryFixed.new [1, 3, 4, 8, 6, 1, 4, 2]).query 3 6
        = some (naiveSum [1, 3, 4, 8, 6, 1, 4, 2] 3 6) ∧
    (SumQueryVec.new [1, 3, 4, 8, 6, 1, 4, 2]).query 3 6
        = some (naiveSum [1, 3, 4, 8, 6, 1, 4, 2] 3 6) ∧
    (SumQuerySlice.new [1, 3, 4, 8, 6, 1, 4, 2]).query 3 6
        = some (naiveSum [1, 3, 4, 8, 6, 1, 4, 2] 3 6) :=
  query_matches_naive_sum [1, 3, 4, 8, 6, 1, 4, 2] 3 6 (by decide) (by decide)

/-- C2: for every non-empty source `S`, construction yields a table of
the same length with `table[0] = S[0]`, and
`table[i] = table[i-1] + S[i]` for every `i` with `1 ≤ i < S.length`,
for the Fixed and Vec variants. -/
theorem construction_prefix_table (S : List Int) (hne : S ≠ []) :
    (SumQueryFixed.new S).prefix_sum_array.length = S.length ∧
    (SumQueryVec.new S).prefix_sum_array.length = S.length ∧
    (SumQueryFixed.new S).prefix_sum_array.getD 0 0 = S.getD 0 0 ∧
    (SumQueryVec.new S).prefix_sum_array.getD 0 0 = S.getD 0 0 ∧
    (∀ i, 1 ≤ i → i < S.length →
      (SumQueryFixed.new S).prefix_sum_array.getD i 0
        = (SumQueryFixed.new S).prefix_sum_array.getD (i - 1) 0 + S.getD i 0 ∧
      (SumQueryVec.new S).prefix_sum_array.getD i 0
        = (SumQueryVec.new S).prefix_sum_array.getD (i - 1) 0 + S.getD i 0) := by
  have hpos : 0 < S.length := List.length_pos.mpr hne
  have hzero : (psTable S).getD 0 0 = S.getD 0 0 := by
    rw [psTable_getD S hpos, take_one_sum S hpos]
  refine ⟨?_, ?_, ?_, ?_, ?_⟩
  · simp only [fixed_table, length_psTable]
  · simp only [vec_table, length_psTable]
  · simp only [fixed_table, hzero]
  · simp only [vec_table, hzero]
  · intro i h1 h2
    have he : i - 1 + 1 = i := by omega
    have hrec : (psTable S).getD i 0 = (psTable S).getD (i - 1) 0 + S.getD i 0 := by
      rw [psTable_getD S h2, psTable_getD S (show i - 1 < S.length by omega), he,
        take_succ_sum S h2]
    constructor
    · simp only [fixed_table, hrec]
    · simp only [vec_table, hrec]

/-- Witness for C2 at `S = [1, 2, 3]`, with the recurrence instantiated
at `i = 2`. -/
theorem construction_prefix_table_witness :
    ((SumQueryFixed.new [1, 2, 3]).prefix_sum_array.length = List.length [1, 2, 3] ∧
     (SumQueryVec.new [1, 2, 3]).prefix_sum_array.length = List.length [1, 2, 3] ∧
     (SumQueryFixed.new [1, 2, 3]).prefix_sum_array.getD 0 0 = List.getD [1, 2, 3] 0 0 ∧
     (SumQueryVec.new [1, 2, 3]).prefix_sum_array.getD 0 0 = List.getD [1, 2, 3] 0 0) ∧
    ((SumQueryFixed.new [1, 2, 3]).prefix_sum_array.getD 2 0
      = (SumQueryFixed.new [1, 2, 3]).prefix_sum_array.getD 1 0 + List.getD [1, 2, 3] 2 0 ∧
     (SumQueryVec.new [1, 2, 3]).prefix_sum_array.getD 2 0
      = (SumQueryVec.new [1, 2, 3]).prefix_sum_array.getD 1 0 + List.getD [1, 2, 3] 2 0) := by
  have h := construction_prefix_table [1, 2, 3] (by decide)
  exact ⟨⟨h.1, h.2.1, h.2.2.1, h.2.2.2.1⟩, h.2.2.2.2 2 (by decide) (by decide)⟩

/-- C3: on every valid range, `query` returns exactly `table[stop]` when
`start = 0` and `table[stop] - table[start-1]` otherwise, in all three
storage variants. -/
theorem query_is_table_lookup (S : List Int) (start stop : Nat)
    (h1 : start ≤ stop) (h2 : stop < S.length) :
    (SumQueryFixed.new S).query start stop
      = some (if start = 0 then (SumQueryFixed.new S).prefix_sum_array.getD stop 0
          else (SumQueryFixed.new S).prefix_sum_array.getD stop 0
            - (SumQueryFixed.new S).prefix_sum_array.getD (start - 1) 0) ∧
    (SumQueryVec.new S).query start stop
      = some (if start = 0 then (SumQueryVec.new S).prefix_sum_array.getD stop 0
          else (SumQueryVec.new S).prefix_sum_array.getD stop 0
            - (SumQueryVec.new S).prefix_sum_array.getD (start - 1) 0) ∧
    (SumQuerySlice.new S).query start stop
      = some (if start = 0 then (SumQuerySlice.new S).prefix_sum_array.getD stop 0
          else (SumQuerySlice.new S).prefix_sum_array.getD stop 0
            - (SumQuerySlice.new S).prefix_sum_array.getD (start - 1) 0) := by
  have hq := queryImpl_psTable_formula S h1 h2
  refine ⟨?_, ?_, ?_⟩ <;>
    simp only [SumQueryFixed.query, SumQueryVec.query, SumQuerySlice.query,
      fixed_table, vec_table, slice_table, hq]

/-- Witness for C3 at `S = [2, 5, 7]`, `(start, stop) = (1, 2)`. -/
theorem query_is_table_lookup_witness :
    (SumQueryFixed.new [2, 5, 7]).query 1 2
      = some (if (1 : Nat) = 0 then (SumQueryFixed.new [2, 5, 7]).prefix_sum_array.getD 2 0
          else (SumQueryFixed.new [2, 5, 7]).prefix_sum_array.getD 2 0
            - (SumQueryFixed.new [2, 5, 7]).prefix_sum_array.getD 0 0) ∧
    (SumQueryVec.new [2, 5, 7]).query 1 2
      = some (if (1 : Nat) = 0 then (SumQueryVec.new [2, 5, 7]).prefix_sum_array.getD 2 0
          else (SumQueryVec.new [2, 5, 7]).prefix_sum_array.getD 2 0
            - (SumQueryVec.new [2, 5, 7]).prefix_sum_array.getD 0 0) ∧
    (SumQuerySlice.new [2, 5, 7]).query 1 2
      = some (if (1 : Nat) = 0 then (SumQuerySlice.new [2, 5, 7]).prefix_sum_array.getD 2 0
          else (SumQuerySlice.new [2, 5, 7]).prefix_sum_array.getD 2 0
            - (SumQuerySlice.new [2, 5, 7]).prefix_sum_array.getD 0 0) :=
  query_is_table_lookup [2, 5, 7] 1 2 (by decide) (by decide)

/-- C4: the three storage variants constructed from the same sequence
return identical results for identical queries (here proved for all
argument pairs, valid or not). -/
theorem storage_variants_agree (S : List Int) (start stop : Nat) :
    (SumQueryFixed.new S).query start stop = (SumQueryVec.new S).query start stop ∧
    (SumQueryVec.new S).query start stop = (SumQuerySlice.new S).query start stop := by
  refine ⟨?_, ?_⟩ <;>
    simp only [SumQueryFixed.query, SumQueryVec.query, SumQuerySlice.query,
      fixed_table, vec_table, slice_table]

/-- C5: `query start stop` with `stop < start` fails the
`assert!(end >= start)` contract check and returns no value, in all
three storage variants. -/
theorem query_reversed_range_fails (S : List Int) (start stop : Nat) (h : stop < start) :
    (SumQueryFixed.new S).query start stop = none ∧
    (SumQueryVec.new S).query start stop = none ∧
    (SumQuerySlice.new S).query start stop = none := by
  have hq : queryImpl (psTable S) start stop = none := by
    unfold queryImpl
    rw [if_neg (by omega)]
  refine ⟨?_, ?_, ?_⟩ <;>
    simp only [SumQueryFixed.query, SumQueryVec.query, SumQuerySlice.query,
      fixed_table, vec_table, slice_table, hq]

/-- Witness for C5 at `S = [1, 2]`, `(start, stop) = (1, 0)`. -/
theorem query_reversed_range_fails_witness :
    (SumQueryFixed.new [1, 2]).query 1 0 = none ∧
    (SumQueryVec.new [1, 2]).query 1 0 = none ∧
    (SumQuerySlice.new [1, 2]).query 1 0 = none :=
  query_reversed_range_fails [1, 2] 1 0 (by decide)

/-- C6: any query violating the contract (`stop < start`, or an index
at or beyond the length) panics and never produces a value — it is not
converted into a sentinel, a clamped result, or a recoverable error. -/
theorem query_contract_violation_fails (S : List Int) (start stop : Nat)
    (h : stop < start ∨ S.length ≤ stop ∨ S.length ≤ start) :
    (SumQueryFixed.new S).query start stop = none ∧
    (SumQueryVec.new S).query start stop = none ∧
    (SumQuerySlice.new S).query start stop = none := by
  have hq := queryImpl_psTable_violation S h
  refine ⟨?_, ?_, ?_⟩ <;>
    simp only [SumQueryFixed.query, SumQueryVec.query, SumQuerySlice.query,
      fixed_table, vec_table, slice_table, hq]

/-- Witness for C6 at `S = [1, 2]`, `(start, stop) = (0, 5)`. -/
theorem query_contract_violation_fails_witness :
    (SumQueryFixed.new [1, 2]).query 0 5 = none ∧
    (SumQueryVec.new [1, 2]).query 0 5 = none ∧
    (SumQuerySlice.new [1, 2]).query 0 5 = none :=
  query_contract_violation_fails [1, 2] 0 5 (by decide)

/-- C7: construction has no precondition and never fails: `new` always
returns a structure whose table has the same length as the source, and
an empty source yields an empty table, in all three variants. -/
theorem construction_total (S : List Int) :
    (SumQueryVec.new S).prefix_sum_array.length = S.length ∧
    (SumQueryFixed.new S).prefix_sum_array.length = S.length ∧
    (SumQuerySlice.new S).prefix_sum_array.length = S.length ∧
    (SumQueryVec.new []).prefix_sum_array = [] ∧
    (SumQueryFixed.new []).prefix_sum_array = [] ∧
    (SumQuerySlice.new []).prefix_sum_array = [] :=
  ⟨by simp only [vec_table, length_psTable],
   by simp only [fixed_table, length_psTable],
   by simp only [slice_table, length_psTable], rfl, rfl, rfl⟩

/-- C8: the concrete scenario `S = [1, 3, 4, 8, 6, 1, 4, 2]`:
the constructed table is `[1, 4, 8, 16, 22, 23, 27, 29]` and the seven
listed queries return 19, 29, 27, 26, 25, 5 and 4. -/
theorem concrete_scenario :
    (SumQueryFixed.new [1, 3, 4, 8, 6, 1, 4, 2]).prefix_sum_array
        = [1, 4, 8, 16, 22, 23, 27, 29] ∧
    (SumQueryFixed.new [1, 3, 4, 8, 6, 1, 4, 2]).query 3 6 = some 19 ∧
    (SumQueryFixed.new [1, 3, 4, 8, 6, 1, 4, 2]).query 0 7 = some 29 ∧
    (SumQueryFixed.new [1, 3, 4, 8, 6, 1, 4, 2]).query 0 6 = some 27 ∧
    (SumQueryFixed.new [1, 3, 4, 8, 6, 1, 4, 2]).query 1 6 = some 26 ∧
    (SumQueryFixed.new [1, 3, 4, 8, 6, 1, 4, 2]).query 2 7 = some 25 ∧
    (SumQueryFixed.new [1, 3, 4, 8, 6, 1, 4, 2]).query 5 6 = some 5 ∧
    (SumQueryFixed.new [1, 3, 4, 8, 6, 1, 4, 2]).query 6 6 = some 4 := by
  decide

/-- C9: `query` has no side effects: a call leaves the stored source
and the prefix-sum table unchanged, and repeated calls with the same
arguments on the same structure return equal results. -/
theorem query_is_pure (s : SumQueryVec) (t : SumQueryFixed) (start stop : Nat) :
    (s.queryCall start stop).2 = s ∧
    (s.queryCall start stop).2.data = s.data ∧
    (s.queryCall start stop).2.prefix_sum_array = s.prefix_sum_array ∧
    ((s.queryCall start stop).2.queryCall start stop).1 = (s.queryCall start stop).1 ∧
    (t.queryCall start stop).2 = t ∧
    (t.queryCall start stop).2.data = t.data ∧
    (t.queryCall start stop).2.prefix_sum_array = t.prefix_sum_array ∧
    ((t.queryCall start stop).2.queryCall start stop).1 = (t.queryCall start stop).1 :=
  ⟨rfl, rfl, rfl, rfl, rfl, rfl, rfl, rfl⟩

/-- C10: on a structure built from the empty sequence every query
fails; in particular `query 0 0` passes the `end >= start` assertion
but panics on the out-of-bounds table lookup, so it returns no value. -/
theorem empty_structure_queries_fail (start stop : Nat) :
    (SumQueryVec.new []).query start stop = none ∧
    (SumQuerySlice.new []).query start stop = none ∧
    (SumQueryFixed.new []).query start stop = none ∧
    ((0 : Nat) ≥ 0 ∧ (SumQueryVec.new []).query 0 0 = none) := by
  have hnone : ∀ a b : Nat, queryImpl [] a b = none := fun a b =>
    queryImpl_none_of_oob [] (by simp)
  exact ⟨hnone start stop, hnone start stop, hnone start stop,
    le_refl 0, hnone 0 0⟩

end Kuehree
